import Mathlib

/-!
Verification development for the `groq-search` conversational agent.

The Python sources (`src/main.py`, `src/tools/tool_manager.py`,
`src/tools/calculate.py`, `src/tools/web_search.py`) are shallowly embedded
below.  Remote completion calls, the web-search HTTP call and raised
exceptions are made explicit through an `Env` record of oracle results;
pure code (the text tool-call detector, the calculator, the router's
response parsing, the history mutation protocol) is translated directly.

Modelling conventions:
* Python exceptions around remote calls become `Except String`;
  an exception that the source does not catch makes the embedded
  function return `none`.
* Python regular expressions are interpreted by a small backtracking
  matcher (`mrun`) over an explicit pattern AST; each pattern of the
  source is transcribed term by term.  Python's unicode-aware `\w`, `\s`
  and case folding are restricted to ASCII.
* IEEE-754 floats are modelled by exact rationals; this only matters for
  printing of non-terminating decimals and irrational powers, which no
  theorem below depends on.
-/

namespace GroqSearch

/-! ### Basic string utilities mirroring Python `str` methods -/

/-- Python whitespace characters (`\s`, `str.strip()`), ASCII fragment. -/
def isPySpace (c : Char) : Bool :=
  c == ' ' || c == '\t' || c == '\n' || c == '\r' || c == '\x0b' || c == '\x0c'

/-- `str.upper()` (ASCII). -/
def asciiUpper (s : String) : String := ⟨s.data.map Char.toUpper⟩

/-- `str.lower()` (ASCII). -/
def asciiLower (s : String) : String := ⟨s.data.map Char.toLower⟩

/-- Drop from the end of a list while a predicate holds. -/
def dropEndWhile (p : Char → Bool) (l : List Char) : List Char :=
  (l.reverse.dropWhile p).reverse

/-- `str.strip()` with no argument: strip whitespace from both ends. -/
def pyStrip (s : String) : String :=
  ⟨dropEndWhile isPySpace (s.data.dropWhile isPySpace)⟩

/-- `str.strip(chars)`: strip any of the given characters from both ends. -/
def stripSet (cs : List Char) (s : String) : String :=
  ⟨dropEndWhile (fun c => cs.contains c) (s.data.dropWhile (fun c => cs.contains c))⟩

/-- Does `needle` start `hay`? -/
def isPrefixL : List Char → List Char → Bool
  | [], _ => true
  | _ :: _, [] => false
  | a :: as, b :: bs => a == b && isPrefixL as bs

/-- Substring test on char lists (Python's `sub in hay`). -/
def containsL : List Char → List Char → Bool
  | needle, [] => isPrefixL needle []
  | needle, c :: rest => isPrefixL needle (c :: rest) || containsL needle rest

/-- Python's `sub in hay` on strings. -/
def containsSub (hay sub : String) : Bool := containsL sub.data hay.data

/-- Character-level flat map (used for `str.replace` with 1-char needle). -/
def flatMapL (f : Char → List Char) : List Char → List Char
  | [] => []
  | c :: r => f c ++ flatMapL f r

/-- JSON string escaping of `json.dumps` (common escapes; control/unicode
escaping beyond these is not exercised by any theorem). -/
def jsonEscapeC (c : Char) : List Char :=
  if c = '"' then ['\\', '"']
  else if c = '\\' then ['\\', '\\']
  else if c = '\n' then ['\\', 'n']
  else if c = '\t' then ['\\', 't']
  else if c = '\r' then ['\\', 'r']
  else [c]

/-- `json.dumps` of a string value. -/
def jsonStr (s : String) : String := ⟨'"' :: (flatMapL jsonEscapeC s.data ++ ['"'])⟩

/-- `json.dumps` of a one-field object with a string value, e.g.
`json.dumps(\x7b"query": q\x7d)`. -/
def jsonObj1 (k v : String) : String :=
  "\x7b" ++ jsonStr k ++ ": " ++ jsonStr v ++ "\x7d"

/-! ### A small backtracking regular-expression engine

Patterns of the source are transcribed into this AST.  `mrun` is a
continuation-passing matcher with the same backtracking order as CPython's
`re` on these patterns: alternatives left to right, greedy repetition
longest-first, lazy repetition shortest-first, `re.search` trying start
positions left to right. -/

inductive RE where
  | eps : RE
  | cls : (Char → Bool) → RE
  | seqr : RE → RE → RE
  | altr : RE → RE → RE
  | rep : Bool → RE → RE      -- `rep lazy body`: star of `body`
  | grp : Nat → RE → RE

abbrev Groups := List (Nat × Nat × Nat)

/-- CPS backtracking matcher.  `fuel` bounds recursion depth only; it is
always instantiated large enough for the inputs at hand. -/
def mrun : Nat → RE → List Char → Nat → Groups →
    (Nat → Groups → Option (Nat × Groups)) → Option (Nat × Groups)
  | 0, _, _, _, _, _ => none
  | _ + 1, .eps, _, i, g, k => k i g
  | _ + 1, .cls p, s, i, g, k =>
    match s.get? i with
    | some c => if p c then k (i + 1) g else none
    | none => none
  | n + 1, .seqr a b, s, i, g, k => mrun n a s i g (fun j g2 => mrun n b s j g2 k)
  | n + 1, .altr a b, s, i, g, k => (mrun n a s i g k) <|> (mrun n b s i g k)
  | n + 1, .rep lz r, s, i, g, k =>
    if lz then
      (k i g) <|>
        (mrun n r s i g (fun j g2 => if i < j then mrun n (.rep true r) s j g2 k else none))
    else
      (mrun n r s i g (fun j g2 => if i < j then mrun n (.rep false r) s j g2 k else none))
        <|> (k i g)
  | n + 1, .grp ix r, s, i, g, k => mrun n r s i g (fun j g2 => k j ((ix, i, j) :: g2))

structure MatchRes where
  mstart : Nat
  mend : Nat
  groups : Groups

def reFuel (s : List Char) : Nat := 4 * s.length + 240

/-- Anchored match attempt at position `i`. -/
def reSearchAt (r : RE) (s : List Char) (i : Nat) : Option MatchRes :=
  (mrun (reFuel s) r s i [] (fun j g => some (j, g))).map (fun p => ⟨i, p.1, p.2⟩)

/-- `re.search`: leftmost match. -/
def reSearch (r : RE) (s : List Char) : Option MatchRes :=
  (List.range (s.length + 1)).findSome? (fun i => reSearchAt r s i)

def sliceL (s : List Char) (a b : Nat) : String := ⟨(s.drop a).take (b - a)⟩

/-- `match.group(ix)` for `ix ≥ 1` (the head of the group list is the most
recent capture, as in CPython). -/
def groupStr (s : List Char) (m : MatchRes) (ix : Nat) : Option String :=
  (m.groups.find? (fun t => t.1 == ix)).map (fun t => sliceL s t.2.1 t.2.2)

/-- `match.group(0)`. -/
def group0 (s : List Char) (m : MatchRes) : String := sliceL s m.mstart m.mend

/-! Pattern building blocks.  All first-pass patterns of the source are
compiled with `re.IGNORECASE | re.DOTALL`, so literal characters are
case-insensitive and `.` matches every character. -/

def chCI (c : Char) : RE := .cls (fun x => x.toLower == c.toLower)

def chCS (c : Char) : RE := .cls (fun x => x == c)

def seqs (l : List RE) : RE := l.foldr .seqr .eps

def litCI (s : String) : RE := seqs (s.data.map chCI)

def litCS (s : String) : RE := seqs (s.data.map chCS)

/-- `\w` (ASCII fragment of Python's unicode-aware class). -/
def wordC : RE := .cls (fun c => c.isAlphanum || c == '_')

/-- `\s`. -/
def spaceC : RE := .cls isPySpace

/-- `.` under `re.DOTALL`. -/
def anyC : RE := .cls (fun _ => true)

def oneOf (cs : List Char) : RE := .cls (fun c => cs.contains c)

def noneOf (cs : List Char) : RE := .cls (fun c => !(cs.contains c))

def starG (r : RE) : RE := .rep false r

def starL (r : RE) : RE := .rep true r

def plusG (r : RE) : RE := .seqr r (.rep false r)

def plusL (r : RE) : RE := .seqr r (.rep true r)

def optG (r : RE) : RE := .altr r .eps

/-! ### Text tool-call detector (`src/tools/tool_manager.py`, `detect_tool_call`)

The ten first-pass patterns, in the order of the source's `patterns` list.
Source comments are reproduced as the original regex text. -/

-- pattern <function=(\w+)\s+\[(.*?)\]
def pat0 : RE := seqs
  [litCI "<function=", .grp 1 (plusG wordC), plusG spaceC,
   chCI '[', .grp 2 (starL anyC), chCI ']']

-- pattern <function=(\w+)\s+\[(.*?)\](?:.*?)</function>
def pat1 : RE := seqs
  [litCI "<function=", .grp 1 (plusG wordC), plusG spaceC,
   chCI '[', .grp 2 (starL anyC), chCI ']', starL anyC, litCI "</function>"]

-- pattern <function=(\w+)\s+(\x7b.*?\x7d)>
def pat2 : RE := seqs
  [litCI "<function=", .grp 1 (plusG wordC), plusG spaceC,
   .grp 2 (seqs [chCI '\x7b', starL anyC, chCI '\x7d']), chCI '>']

-- pattern function\s+(\w+)\(([^)]*)\)
def pat3 : RE := seqs
  [litCI "function", plusG spaceC, .grp 1 (plusG wordC),
   chCI '(', .grp 2 (starG (noneOf [')'])), chCI ')']

-- pattern (\w+)\(([^)]*)\)
def pat4 : RE := seqs
  [.grp 1 (plusG wordC), chCI '(', .grp 2 (starG (noneOf [')'])), chCI ')']

-- pattern <tool:(\w+)[^>]*>([^<]*)</tool>
def pat5 : RE := seqs
  [litCI "<tool:", .grp 1 (plusG wordC), starG (noneOf ['>']), chCI '>',
   .grp 2 (starG (noneOf ['<'])), litCI "</tool>"]

-- pattern Using (\w+) to (?:search|query|calculate) (?:for )?"([^"]*)"
def pat6 : RE := seqs
  [litCI "Using ", .grp 1 (plusG wordC), litCI " to ",
   .altr (litCI "search") (.altr (litCI "query") (litCI "calculate")),
   chCI ' ', optG (litCI "for "), chCI '"', .grp 2 (starG (noneOf ['"'])), chCI '"']

-- pattern I\x27ll search (?:for|about) ["\x27]([^"\x27]+)["\x27]
def pat7 : RE := seqs
  [litCI "I\x27ll search ", .altr (litCI "for") (litCI "about"), chCI ' ',
   oneOf ['"', '\x27'], .grp 1 (plusG (noneOf ['"', '\x27'])), oneOf ['"', '\x27']]

-- pattern Let me (search|calculate) ["\x27]([^"\x27]+)["\x27]
def pat8 : RE := seqs
  [litCI "Let me ", .grp 1 (.altr (litCI "search") (litCI "calculate")), chCI ' ',
   oneOf ['"', '\x27'], .grp 2 (plusG (noneOf ['"', '\x27'])), oneOf ['"', '\x27']]

-- pattern Let me use (\w+)[^\n]+"([^"]+)"
def pat9 : RE := seqs
  [litCI "Let me use ", .grp 1 (plusG wordC), plusG (noneOf ['\n']),
   chCI '"', .grp 2 (plusG (noneOf ['"'])), chCI '"']

/-! The second-pass `search_indicators` list (compiled with `re.IGNORECASE`
only, so `.` does not match a newline). -/

-- pattern I need to search for (.*?)[\.\n]
def sip0 : RE := seqs
  [litCI "I need to search for ", .grp 1 (starL (noneOf ['\n'])), oneOf ['.', '\n']]

-- pattern I should search for (.*?)[\.\n]
def sip1 : RE := seqs
  [litCI "I should search for ", .grp 1 (starL (noneOf ['\n'])), oneOf ['.', '\n']]

-- pattern I will search for (.*?)[\.\n]
def sip2 : RE := seqs
  [litCI "I will search for ", .grp 1 (starL (noneOf ['\n'])), oneOf ['.', '\n']]

-- pattern Let me search for (.*?)[\.\n]
def sip3 : RE := seqs
  [litCI "Let me search for ", .grp 1 (starL (noneOf ['\n'])), oneOf ['.', '\n']]

-- pattern I would need to look up (.*?)[\.\n]
def sip4 : RE := seqs
  [litCI "I would need to look up ", .grp 1 (starL (noneOf ['\n'])), oneOf ['.', '\n']]

/-- `DetectionResult`: the dict returned by `detect_tool_call`, with
`arguments` as a flat string-to-string mapping. -/
structure DetectionResult where
  tool_name : Option String
  arguments : Option (List (String × String))
  original_text : Option String
deriving DecidableEq, Repr

/-- The keys of `_tools` after `load_tools()` has run at import time. -/
def registeredTools : List String := ["web_search", "calculate"]

/-- The synonym table of `detect_tool_call` (lines 119–122). -/
def normTool (t : String) : String :=
  if t = "websearch" || t = "search" || t = "googlesearch" then "web_search"
  else if t = "calc" || t = "calculator" then "calculate"
  else t

-- pattern "query":\s*"([^"]+)" (no flags: case-sensitive)
def reQueryKV : RE := seqs
  [litCS "\"query\":", starG spaceC, chCS '"', .grp 1 (plusG (noneOf ['"'])), chCS '"']

-- pattern "expression":\s*"([^"]+)" (no flags: case-sensitive)
def reExprKV : RE := seqs
  [litCS "\"expression\":", starG spaceC, chCS '"', .grp 1 (plusG (noneOf ['"'])), chCS '"']

-- pattern "([^"]+)" (no flags: case-sensitive)
def reQuoted : RE := seqs [chCS '"', .grp 1 (plusG (noneOf ['"'])), chCS '"']

/-- Characters stripped by `args_text.strip` (quote, brace, bracket, space). -/
def argStripChars : List Char := ['"', '\x27', '\x7b', '\x7d', '[', ']', ' ']

/-- Argument extraction from the raw blob: the keyed pattern, else the first
quoted string, else the stripped blob (lines 127–158). -/
def extractArg (kv : RE) (args_text : String) : String :=
  match (reSearch kv args_text.data).bind (fun m => groupStr args_text.data m 1) with
  | some v => v
  | none =>
    match (reSearch reQuoted args_text.data).bind (fun m => groupStr args_text.data m 1) with
    | some v => v
    | none => stripSet argStripChars args_text

/-- The standard two-group handler (lines 113–164): normalize the tool name,
reject unknown tools (fall through to the next pattern), and extract the
expected argument. -/
def stdHandle (g1 g2 g0 : String) : Option DetectionResult :=
  let tool_name := normTool (asciiLower g1)
  if registeredTools.contains tool_name then
    if tool_name = "web_search" then
      some ⟨some "web_search", some [("query", extractArg reQueryKV g2)], some g0⟩
    else if tool_name = "calculate" then
      some ⟨some "calculate", some [("expression", extractArg reExprKV g2)], some g0⟩
    else none
  else none

/-- One first-pass pattern evaluated through the standard handler.  A `none`
result means "no match or unregistered tool: try the next pattern". -/
def stepStd (r : RE) (text : String) : Option DetectionResult :=
  match reSearch r text.data with
  | some m =>
    match groupStr text.data m 1, groupStr text.data m 2 with
    | some g1, some g2 => stdHandle g1 g2 (group0 text.data m)
    | _, _ => none
  | none => none

/-- Special case for the `I'll search for "..."` pattern (lines 86–93):
always the search tool. -/
def step7 (text : String) : Option DetectionResult :=
  match reSearch pat7 text.data with
  | some m =>
    match groupStr text.data m 1 with
    | some q => some ⟨some "web_search", some [("query", q)], some (group0 text.data m)⟩
    | none => none
  | none => none

/-- Special case for the `Let me search/calculate "..."` pattern
(lines 95–111): the captured verb selects the tool.  The unreachable
other-verb case falls through to the standard handler, as the source does. -/
def step8 (text : String) : Option DetectionResult :=
  match reSearch pat8 text.data with
  | some m =>
    match groupStr text.data m 1, groupStr text.data m 2 with
    | some g1, some g2 =>
      let tool_type := asciiLower g1
      if tool_type = "search" then
        some ⟨some "web_search", some [("query", g2)], some (group0 text.data m)⟩
      else if tool_type = "calculate" then
        some ⟨some "calculate", some [("expression", g2)], some (group0 text.data m)⟩
      else stdHandle g1 g2 (group0 text.data m)
    | _, _ => none
  | none => none

/-- One second-pass indicator pattern (lines 175–183): always the search
tool, query stripped of whitespace then quotes. -/
def stepSI (r : RE) (text : String) : Option DetectionResult :=
  match reSearch r text.data with
  | some m =>
    match groupStr text.data m 1 with
    | some raw =>
      some ⟨some "web_search", some [("query", stripSet ['"', '\x27'] (pyStrip raw))],
            some (group0 text.data m)⟩
    | none => none
  | none => none

/-- The detector steps in source order: the ten structured patterns, then
the five prose indicators. -/
def detectSteps (text : String) : List (Option DetectionResult) :=
  [stepStd pat0 text, stepStd pat1 text, stepStd pat2 text, stepStd pat3 text,
   stepStd pat4 text, stepStd pat5 text, stepStd pat6 text, step7 text,
   step8 text, stepStd pat9 text,
   stepSI sip0 text, stepSI sip1 text, stepSI sip2 text, stepSI sip3 text,
   stepSI sip4 text]

/-- `detect_tool_call` (lines 50–185): the first step that produces a
result wins; otherwise the empty result. -/
def detect_tool_call (text : String) : DetectionResult :=
  match (detectSteps text).findSome? id with
  | some d => d
  | none => ⟨none, none, none⟩

/-! ### Calculator tool (`src/tools/calculate.py`)

`eval` restricted to the whitelisted characters is embedded as an
arithmetic interpreter with Python 3 semantics: `/` is true division (a
float), `//` floor division, `%` floor modulus, `**` right-associative
power binding tighter than unary minus on its left.  Integers are exact
`Int`; floats are exact rationals (see the header note). -/

/-- A Python number: `int` or `float`. -/
inductive PyVal where
  | vint : Int → PyVal
  | vfloat : Rat → PyVal
deriving DecidableEq, Repr

def toRat : PyVal → Rat
  | .vint n => (n : Rat)
  | .vfloat q => q

inductive BOp where
  | add | sub | mul | div | fdiv | mod | pow
deriving DecidableEq, Repr

inductive PExpr where
  | lit : PyVal → PExpr
  | neg : PExpr → PExpr
  | pos : PExpr → PExpr
  | bin : BOp → PExpr → PExpr → PExpr
deriving Repr

inductive Tok where
  | tnum : PyVal → Tok
  | tpow | tfdiv | tmul | tdiv | tmod | tplus | tminus | tlp | trp
deriving DecidableEq, Repr

/-- Python 3 `SyntaxError` string for a bad expression. -/
def synErr : String := "invalid syntax (<string>, line 1)"

def digitsToNat (ds : List Char) : Nat :=
  ds.foldl (fun a c => a * 10 + (c.toNat - '0'.toNat)) 0

/-- Lex one numeric literal: `d+`, `d+.d*` or `.d+` (no exponent letter can
appear in a whitelisted expression).  Python 3 rejects a multi-digit
decimal integer literal with a leading zero unless it is all zeros. -/
def lexNum (l : List Char) : Except String (Tok × List Char) :=
  let ip := l.takeWhile Char.isDigit
  let r1 := l.drop ip.length
  match r1 with
  | '.' :: r2 =>
    let fp := r2.takeWhile Char.isDigit
    let r3 := r2.drop fp.length
    if ip.isEmpty && fp.isEmpty then .error synErr
    else
      let num : Int := (digitsToNat (ip ++ fp) : Int)
      .ok (.tnum (.vfloat (Rat.mk' 1 1 * num / ((10 : Rat) ^ fp.length))), r3)
  | _ =>
    if ip.isEmpty then .error synErr
    else if ip.length ≥ 2 && ip.headI = '0' && ip.any (fun c => c ≠ '0') then
      .error "leading zeros in decimal integer literals are not permitted (<string>, line 1)"
    else .ok (.tnum (.vint (digitsToNat ip : Int)), r1)

/-- Tokenizer over the whitelisted characters (total on all strings:
anything else is a syntax error, as `eval` would raise). -/
def tokGo : Nat → List Char → Except String (List Tok)
  | 0, _ => .error synErr
  | _ + 1, [] => .ok []
  | n + 1, c :: rest =>
    if isPySpace c then tokGo n rest
    else if c = '*' then
      match rest with
      | '*' :: r2 => (tokGo n r2).map (fun ts => Tok.tpow :: ts)
      | _ => (tokGo n rest).map (fun ts => Tok.tmul :: ts)
    else if c = '/' then
      match rest with
      | '/' :: r2 => (tokGo n r2).map (fun ts => Tok.tfdiv :: ts)
      | _ => (tokGo n rest).map (fun ts => Tok.tdiv :: ts)
    else if c = '%' then (tokGo n rest).map (fun ts => Tok.tmod :: ts)
    else if c = '+' then (tokGo n rest).map (fun ts => Tok.tplus :: ts)
    else if c = '-' then (tokGo n rest).map (fun ts => Tok.tminus :: ts)
    else if c = '(' then (tokGo n rest).map (fun ts => Tok.tlp :: ts)
    else if c = ')' then (tokGo n rest).map (fun ts => Tok.trp :: ts)
    else if c.isDigit || c = '.' then
      match lexNum (c :: rest) with
      | .ok (t, r2) => (tokGo n r2).map (fun ts => t :: ts)
      | .error e => .error e
    else .error synErr

def tokenize (s : String) : Except String (List Tok) :=
  tokGo (s.length + 1) s.data

/-! Recursive-descent parser for Python's expression grammar over these
tokens.  `u_expr ::= power | "-" u_expr | "+" u_expr`,
`power ::= primary ["**" u_expr]`, `*` / `//` / `/` / `%` then `+` / `-`
left associative. -/

mutual

def pExpr : Nat → List Tok → Except String (PExpr × List Tok)
  | 0, _ => .error synErr
  | n + 1, ts => do
    let (a, r) ← pTerm n ts
    pExprL n a r

def pExprL : Nat → PExpr → List Tok → Except String (PExpr × List Tok)
  | 0, _, _ => .error synErr
  | n + 1, a, .tplus :: r => do
    let (b, r2) ← pTerm n r
    pExprL n (.bin .add a b) r2
  | n + 1, a, .tminus :: r => do
    let (b, r2) ← pTerm n r
    pExprL n (.bin .sub a b) r2
  | _ + 1, a, ts => .ok (a, ts)

def pTerm : Nat → List Tok → Except String (PExpr × List Tok)
  | 0, _ => .error synErr
  | n + 1, ts => do
    let (a, r) ← pUnary n ts
    pTermL n a r

def pTermL : Nat → PExpr → List Tok → Except String (PExpr × List Tok)
  | 0, _, _ => .error synErr
  | n + 1, a, .tmul :: r => do
    let (b, r2) ← pUnary n r
    pTermL n (.bin .mul a b) r2
  | n + 1, a, .tdiv :: r => do
    let (b, r2) ← pUnary n r
    pTermL n (.bin .div a b) r2
  | n + 1, a, .tfdiv :: r => do
    let (b, r2) ← pUnary n r
    pTermL n (.bin .fdiv a b) r2
  | n + 1, a, .tmod :: r => do
    let (b, r2) ← pUnary n r
    pTermL n (.bin .mod a b) r2
  | _ + 1, a, ts => .ok (a, ts)

def pUnary : Nat → List Tok → Except String (PExpr × List Tok)
  | 0, _ => .error synErr
  | n + 1, .tminus :: r => (pUnary n r).map (fun p => (.neg p.1, p.2))
  | n + 1, .tplus :: r => (pUnary n r).map (fun p => (.pos p.1, p.2))
  | n + 1, ts => pPow n ts

def pPow : Nat → List Tok → Except String (PExpr × List Tok)
  | 0, _ => .error synErr
  | n + 1, ts => do
    let (a, r) ← pPrim n ts
    match r with
    | .tpow :: r2 => do
      let (b, r3) ← pUnary n r2
      .ok (.bin .pow a b, r3)
    | _ => .ok (a, r)

def pPrim : Nat → List Tok → Except String (PExpr × List Tok)
  | 0, _ => .error synErr
  | n + 1, .tnum v :: r => .ok (.lit v, r)
  | n + 1, .tlp :: r => do
    let (a, r2) ← pExpr n r
    match r2 with
    | .trp :: r3 => .ok (a, r3)
    | _ => .error synErr
  | _ + 1, _ => .error synErr

end

def pyParse (ts : List Tok) : Except String PExpr := do
  let (a, r) ← pExpr (8 * ts.length + 8) ts
  match r with
  | [] => .ok a
  | _ => .error synErr

/-- `a ** k` for an integer exponent, with Python's result type: two ints
with a non-negative exponent give an int, anything else a float. -/
def powIntExp (a : PyVal) (k : Int) : Except String PyVal :=
  if 0 ≤ k then
    match a with
    | .vint n => .ok (.vint (n ^ k.toNat))
    | .vfloat q => .ok (.vfloat (q ^ k.toNat))
  else
    if toRat a = 0 then .error "0.0 cannot be raised to a negative power"
    else .ok (.vfloat ((toRat a ^ (-k).toNat)⁻¹))

def applyBOp : BOp → PyVal → PyVal → Except String PyVal
  | .add, .vint a, .vint b => .ok (.vint (a + b))
  | .add, a, b => .ok (.vfloat (toRat a + toRat b))
  | .sub, .vint a, .vint b => .ok (.vint (a - b))
  | .sub, a, b => .ok (.vfloat (toRat a - toRat b))
  | .mul, .vint a, .vint b => .ok (.vint (a * b))
  | .mul, a, b => .ok (.vfloat (toRat a * toRat b))
  | .div, a, b =>
    if toRat b = 0 then
      match a, b with
      | .vint _, .vint _ => .error "division by zero"
      | _, _ => .error "float division by zero"
    else .ok (.vfloat (toRat a / toRat b))
  | .fdiv, .vint a, .vint b =>
    if b = 0 then .error "integer division or modulo by zero"
    else .ok (.vint (Int.fdiv a b))
  | .fdiv, a, b =>
    if toRat b = 0 then .error "float floor division by zero"
    else .ok (.vfloat ((⌊toRat a / toRat b⌋ : Int) : Rat))
  | .mod, .vint a, .vint b =>
    if b = 0 then .error "integer division or modulo by zero"
    else .ok (.vint (Int.fmod a b))
  | .mod, a, b =>
    if toRat b = 0 then .error "float modulo"
    else .ok (.vfloat (toRat a - toRat b * ((⌊toRat a / toRat b⌋ : Int) : Rat)))
  | .pow, a, .vint k => powIntExp a k
  | .pow, a, .vfloat qe =>
    if qe.den = 1 then
      -- a float exponent with integral value: Python's result is a float
      (powIntExp a qe.num).map (fun v => .vfloat (toRat v))
    else
      -- irrational powers fall outside the rational model (header note)
      .error "non-integral float exponent outside the rational model"

def evalP : PExpr → Except String PyVal
  | .lit v => .ok v
  | .neg e => (evalP e).map (fun v => match v with
      | .vint n => .vint (-n)
      | .vfloat q => .vfloat (-q))
  | .pos e => evalP e
  | .bin op a b => do
    let va ← evalP a
    let vb ← evalP b
    applyBOp op va vb

/-- The full `eval(expression, ...)` call on a whitelisted expression. -/
def pyEval (s : String) : Except String PyVal :=
  match tokenize s with
  | .error e => .error e
  | .ok ts =>
    match pyParse ts with
    | .error e => .error e
    | .ok a => evalP a

/-- Render the fractional digits of a positive rational remainder. -/
def fracDigits : Nat → Int → Int → List Char
  | 0, _, _ => []
  | _ + 1, _, 0 => []
  | n + 1, den, r =>
    let r10 := r * 10
    let d := r10 / den
    (Char.ofNat ('0'.toNat + d.toNat)) :: fracDigits n den (r10 % den)

/-- `repr`/`json.dumps` of a float value (exact for terminating decimals;
non-terminating expansions are cut at 17 digits, where the IEEE model is
already approximate — no theorem depends on those). -/
def ratRender (q : Rat) : String :=
  let sign := if q < 0 then "-" else ""
  let aq := if q < 0 then -q else q
  let ip : Int := aq.num / (aq.den : Int)
  let r : Int := aq.num % (aq.den : Int)
  let fd := fracDigits 17 (aq.den : Int) r
  sign ++ toString ip ++ "." ++ (if fd.isEmpty then "0" else ⟨fd⟩)

/-- `json.dumps` of a result number. -/
def renderPyVal : PyVal → String
  | .vint n => toString n
  | .vfloat q => ratRender q

/-- `json.dumps(\x7b"result": ...\x7d)`. -/
def mkResult (v : String) : String := "\x7b\"result\": " ++ v ++ "\x7d"

/-- `json.dumps(\x7b"error": ...\x7d)`. -/
def mkError (m : String) : String := "\x7b\"error\": " ++ jsonStr m ++ "\x7d"

/-- The whitelist class `[\d\+\-\*\/\(\)\.\s\^\%]` of line 17. -/
def wlChar (c : Char) : Bool :=
  c.isDigit || c = '+' || c = '-' || c = '*' || c = '/' || c = '(' || c = ')' ||
    c = '.' || c = '^' || c = '%' || isPySpace c

/-- The anchored `re.match` whitelist test of line 17 succeeds exactly
when every character is whitelisted (the `$`-before-final-newline subtlety
is moot because `\n` is itself whitelisted). -/
def isWhitelisted (s : String) : Bool := s.data.all wlChar

/-- The caret-to-double-star `str.replace` of line 21 (1-char needle). -/
def replaceCaretL : List Char → List Char :=
  flatMapL (fun c => if c = '^' then ['*', '*'] else [c])

def replaceCaret (s : String) : String := ⟨replaceCaretL s.data⟩

/-- `calculate` (`src/tools/calculate.py`, lines 4–27). -/
def calculate (expression : String) : String :=
  if !isWhitelisted expression then
    mkError "Invalid characters in expression"
  else
    let expression := replaceCaret expression
    match pyEval expression with
    | .ok result => mkResult (renderPyVal result)
    | .error e => mkError ("Error calculating: " ++ e)

/-- `calculate` as invoked with `function_args.get("expression")`: a `None`
argument makes `re.match` raise `TypeError`, which the function's own
`except` turns into an error payload. -/
def calculateOpt : Option String → String
  | some e => calculate e
  | none => mkError "Error calculating: expected string or bytes-like object"

/-! ### Router and model constants (`src/main.py`, lines 29–95) -/

def MODEL : String := "llama-3.3-70b-versatile"

def ROUTING_MODEL : String := "llama-3.1-8b-instant"

def GENERAL_MODEL : String := "llama-3.3-70b-versatile"

/-- The model chosen for the first completion call (lines 170–174). -/
def selectedModel (suggested_tools : List String) : String :=
  if suggested_tools.isEmpty then GENERAL_MODEL else MODEL

/-- `route_query` (lines 34–95).  The remote routing completion is an
oracle: `.ok content` is the response text, `.error` covers any raised
exception (including a `None` content, whose `.strip()` raises inside the
same `try`).  On failure the function returns the empty list; on success
the decision is upper-cased, stripped, and scanned for the two keywords. -/
def route_query (routeResp : Except String String) : List String :=
  match routeResp with
  | .error _ => []
  | .ok content =>
    let routing_decision := asciiUpper (pyStrip content)
    (if containsSub routing_decision "WEB_SEARCH" then ["web_search"] else []) ++
      (if containsSub routing_decision "CALCULATE" then ["calculate"] else [])

/-! ### Conversation data model (`src/main.py`) -/

inductive Role where
  | system | user | assistant | tool
deriving DecidableEq, Repr

/-- A tool call as stored on an assistant message (`id`, `function.name`,
`function.arguments` as JSON-encoded text). -/
structure ToolCallMsg where
  id : String
  name : String
  arguments : String
deriving DecidableEq, Repr

/-- A conversation-history message.  Absent dict keys are `none`/`[]`. -/
structure Message where
  role : Role
  content : Option String := none
  tool_calls : List ToolCallMsg := []
  tool_call_id : Option String := none
  name : Option String := none
deriving DecidableEq, Repr

/-- A tool call on a completion response.  `arguments` is the result of
`json.loads` on the argument text, restricted to flat string-valued
objects; `none` models undecodable JSON, on which the structured path's
uncaught `json.loads` raises. -/
structure RespToolCall where
  id : String
  fname : String
  arguments : Option (List (String × String))
deriving DecidableEq, Repr

/-- A completion response message (`response.choices[0].message`). -/
structure RespMessage where
  content : Option String
  tool_calls : List RespToolCall
deriving DecidableEq, Repr

/-- The external world of one `run_conversation` turn: the routing
response, the first completion response, the (single) second completion
response, and the web-search tool.  `.error` is a raised exception; the
second response's content may itself be `None`. -/
structure Env where
  routeResp : Except String String
  firstResp : Except String RespMessage
  secondResp : Except String (Option String)
  webSearchImpl : Option String → Except String String

def userMsg (p : String) : Message := { role := .user, content := some p }

def assistantMsg (c : Option String) : Message := { role := .assistant, content := c }

def toolMsg (id name content : String) : Message :=
  { role := .tool, content := some content, tool_call_id := some id, name := some name }

/-- `json.dumps(function_args)` used when re-encoding a response message's
tool-call arguments for history storage; the undecodable case is never
observable (the turn raises before returning). -/
def encodeArgs : Option (List (String × String)) → String
  | none => "<undecodable>"
  | some kvs =>
    "\x7b" ++ String.intercalate ", " (kvs.map (fun kv => jsonStr kv.1 ++ ": " ++ jsonStr kv.2)) ++ "\x7d"

/-- The response message appended verbatim to history (line 205). -/
def respToMessage (r : RespMessage) : Message :=
  { role := .assistant, content := r.content,
    tool_calls := r.tool_calls.map (fun tc => ⟨tc.id, tc.fname, encodeArgs tc.arguments⟩) }

/-- The synthetic assistant message for text-detected and forced calls
(lines 323–336, 362–375, 437–450). -/
def manualCallMsg (id name argKey argVal : String) : Message :=
  { role := .assistant, content := none,
    tool_calls := [⟨id, name, jsonObj1 argKey argVal⟩] }

/-- The `try/except` around a web-search invocation (lines 227–232 etc.). -/
def toolRespOfSearch : Except String String → String
  | .ok r => r
  | .error e => mkError ("Search failed: " ++ e)

def lookupArg (args : List (String × String)) (k : String) : Option String :=
  (args.find? (fun kv => kv.1 == k)).map (fun kv => kv.2)

/-- Python f-string interpolation of an optional value (`str(None)` renders as `"None"`). -/
def pyShow : Option String → String
  | none => "None"
  | some s => s

def apologyFirst : String :=
  "I encountered an error processing your request. Please try again."

def apologySearch : String :=
  "I encountered an error processing the search results. Please try again."

def apologyResults : String :=
  "I encountered an error processing the results. Please try again."

/-- The default system prompt installed when no history is supplied
(lines 112–129). -/
def defaultSystemContent : String :=
  "You are a helpful AI assistant with web search and calculation capabilities.\n\nIMPORTANT: When you need current information or facts, use the web_search function by calling it properly, NOT by writing it as text.\nDO NOT write things like \x27<function=web_search>\x27 or \x27I\x27ll use web_search\x27 in your response.\nInstead, use the provided function calling mechanism to actually invoke the tool.\n\nSimilarly, for calculations, use the calculate function properly through function calling.\n\nRemember:\n- For current information: Use web_search function\n- For calculations: Use calculate function\n- For questions you can answer from your knowledge: Just respond directly"

def initHistory : Option (List Message) → List Message
  | none => [{ role := .system, content := some defaultSystemContent }]
  | some h => h

/-! ### The orchestrator (`run_conversation`, lines 97–505)

The result is `none` when the turn raises (uncaught `json.loads` on
malformed structured arguments, or `detect_tool_call(None)` on a
`None`-content response with no tool calls); otherwise
`some (answer, updated history, feedback messages)`. -/

/-- The tool loop of the structured path (lines 207–260): skip unknown
tools before decoding, decode (raising on malformed arguments), invoke
with the `try/except`, and append one tool-role message per processed
call, in response order. -/
def processCalls (sf : Bool) (env : Env) :
    List RespToolCall → List Message → List String → Option (List Message × List String)
  | [], hist, fb => some (hist, fb)
  | tc :: rest, hist, fb =>
    if registeredTools.contains tc.fname then
      match tc.arguments with
      | none => none
      | some args =>
        if tc.fname = "web_search" then
          let query := lookupArg args "query"
          let fb2 := if sf then
            fb ++ ["Assistant is using WebSearch, query is \"" ++ pyShow query ++ "\""] else fb
          let resp := toolRespOfSearch (env.webSearchImpl query)
          processCalls sf env rest (hist ++ [toolMsg tc.id tc.fname resp]) fb2
        else if tc.fname = "calculate" then
          let expr := lookupArg args "expression"
          let fb2 := if sf then
            fb ++ ["Assistant is using Calculator, expression is \"" ++ pyShow expr ++ "\""] else fb
          let resp := calculateOpt expr
          processCalls sf env rest (hist ++ [toolMsg tc.id tc.fname resp]) fb2
        else
          -- unreachable with the registry of `load_tools`; mirrors lines 246–250
          let fb2 := if sf then fb ++ ["Unknown function called: " ++ tc.fname] else fb
          processCalls sf env rest
            (hist ++ [toolMsg tc.id tc.fname (mkError ("Unknown function: " ++ tc.fname))]) fb2
    else
      let fb2 := if sf then fb ++ ["Unknown tool called: " ++ tc.fname] else fb
      processCalls sf env rest hist fb2

/-- The shared "second completion call" tail: on success append its
content as the final assistant message and return it; on failure return
the branch's apology with the history unmodified further (lines 262–287,
385–409, 467–492). -/
def secondCallTail (env : Env) (sf : Bool) (hist : List Message) (fb : List String)
    (fbTag : String) (apology : String) : Option String × List Message × List String :=
  match env.secondResp with
  | .ok c => (c, hist ++ [assistantMsg c], fb)
  | .error e => (some apology, hist, if sf then fb ++ [fbTag ++ e] else fb)

/-- The structured-tool-calls branch (lines 203–287). -/
def structuredPath (sf : Bool) (env : Env) (resp : RespMessage)
    (hist1 : List Message) (fb : List String) :
    Option (Option String × List Message × List String) :=
  let hist2 := hist1 ++ [respToMessage resp]
  match processCalls sf env resp.tool_calls hist2 fb with
  | none => none
  | some (hist3, fb3) =>
    some (secondCallTail env sf hist3 fb3 "Error in second API call: " apologySearch)

/-- The text-detected-tool branch (lines 295–409). -/
def textPath (sf : Bool) (env : Env) (tname : String) (args : List (String × String))
    (hist1 : List Message) (fb : List String) :
    Option (Option String × List Message × List String) :=
  if tname = "web_search" then
    let query := (lookupArg args "query").getD ""
    let fb2 := if sf then
      fb ++ ["Assistant is using WebSearch via text pattern, query is \"" ++ query ++ "\"",
             "Converting text pattern to proper tool call"] else fb
    let res := toolRespOfSearch (env.webSearchImpl (some query))
    let hist2 := hist1 ++ [manualCallMsg "manual_web_search_call" "web_search" "query" query,
                           toolMsg "manual_web_search_call" "web_search" res]
    some (secondCallTail env sf hist2 fb2
      "Error in second API call after text tool detection: " apologyResults)
  else
    let expr := (lookupArg args "expression").getD ""
    let fb2 := if sf then
      fb ++ ["Assistant is using Calculator via text pattern, expression is \"" ++ expr ++ "\"",
             "Converting text pattern to proper tool call"] else fb
    let res := calculate expr
    let hist2 := hist1 ++ [manualCallMsg "manual_calculate_call" "calculate" "expression" expr,
                           toolMsg "manual_calculate_call" "calculate" res]
    some (secondCallTail env sf hist2 fb2
      "Error in second API call after text tool detection: " apologyResults)

/-- The forced-fallback / direct-answer tail (lines 411–505). -/
def fallbackPath (sf : Bool) (env : Env) (user_prompt content : String)
    (suggested : List String) (hist1 : List Message) (fb : List String) :
    Option (Option String × List Message × List String) :=
  match suggested with
  | [] => some (some content, hist1 ++ [assistantMsg (some content)], fb)
  | primary :: _ =>
    let fb2 := if sf then fb ++ ["Detected suggested tools weren\x27t used. Forcing tool usage..."]
      else fb
    if primary = "web_search" then
      let res := toolRespOfSearch (env.webSearchImpl (some user_prompt))
      let fb3 := if sf then fb2 ++ ["Forcing WebSearch, query is \"" ++ user_prompt ++ "\""]
        else fb2
      let hist2 := hist1 ++ [manualCallMsg "forced_web_search_call" "web_search" "query" user_prompt,
                             toolMsg "forced_web_search_call" "web_search" res]
      some (secondCallTail env sf hist2 fb3
        "Error in second API call after forced tool usage: " apologyResults)
    else
      let fb3 := if primary = "calculate" then
        (if sf then fb2 ++ ["Could not force calculator usage without a valid expression"] else fb2)
        else fb2
      let fb4 := if sf then fb3 ++ ["No tools were used despite routing suggestion"] else fb3
      some (some content, hist1 ++ [assistantMsg (some content)], fb4)

/-- `run_conversation` (lines 97–505). -/
def run_conversation (user_prompt : String) (conversation_history : Option (List Message))
    (show_feedback : Bool) (env : Env) :
    Option (Option String × List Message × List String) :=
  let hist1 := initHistory conversation_history ++ [userMsg user_prompt]
  let suggested := route_query env.routeResp
  let fb1 : List String := if show_feedback then
    [if suggested.isEmpty then "Routing decision: no_tool"
     else "Routing decision: " ++ String.intercalate ", " suggested] else []
  let fb2 := if suggested.length == 1 && show_feedback then
    fb1 ++ ["Directing model to use " ++ suggested.headD ""] else fb1
  -- lines 170–176: the selected model (passed to the external first call)
  let _selected_model := selectedModel suggested
  match env.firstResp with
  | .error e =>
    some (some apologyFirst, hist1,
          if show_feedback then fb2 ++ ["Error in API call: " ++ e] else fb2)
  | .ok resp =>
    match resp.tool_calls with
    | _ :: _ => structuredPath show_feedback env resp hist1 fb2
    | [] =>
      match resp.content with
      | none => none          -- `detect_tool_call(None)` raises `TypeError`
      | some content =>
        let d := detect_tool_call content
        match d.tool_name, d.arguments with
        | some tname, some args => textPath show_feedback env tname args hist1 fb2
        | some _, none => none -- `None.get(...)` would raise (never produced)
        | none, _ => fallbackPath show_feedback env user_prompt content suggested hist1 fb2

/-! ### History-shape predicates (spec §3 invariant, §8 history shape) -/

/-- The tool-call ids advertised by a message (only assistant messages
carry `tool_calls`). -/
def msgToolIds (m : Message) : List String :=
  if m.role = Role.assistant then m.tool_calls.map (fun tc => tc.id) else []

def joinL : List (List String) → List String
  | [] => []
  | x :: r => x ++ joinL r

/-- All tool-call ids advertised strictly before position `i`. -/
def priorIds (hist : List Message) (i : Nat) : List String :=
  joinL ((hist.take i).map msgToolIds)

/-- Every tool-role message's `tool_call_id` appears among the
`tool_calls[i].id` of some preceding assistant message. -/
def toolLinked (hist : List Message) : Prop :=
  ∀ i m, hist[i]? = some m → m.role = Role.tool →
    ∃ cid, m.tool_call_id = some cid ∧ cid ∈ priorIds hist i

/-- `toolLinked` for a suffix considered on its own. -/
def selfContained (d : List Message) : Prop :=
  ∀ j m, d[j]? = some m → m.role = Role.tool →
    ∃ cid, m.tool_call_id = some cid ∧ cid ∈ priorIds d j

/-! ### Branch characterization of one turn -/

/-- The shapes a turn can append after the user message: nothing (first
call failed), an assistant message carrying tool calls followed by the
tool results it covers and the second call's outcome, or a single direct
assistant answer. -/
inductive DeltaSpec (env : Env) : List Message → Prop
  | firstFail (e : String) (he : env.firstResp = .error e) : DeltaSpec env []
  | withTools (a : Message) (ts tail : List Message)
      (ha : a.role = Role.assistant)
      (hts : ∀ m ∈ ts, m.role = Role.tool ∧
        ∃ cid, m.tool_call_id = some cid ∧ cid ∈ msgToolIds a)
      (htail : (∃ c, env.secondResp = .ok c ∧ tail = [assistantMsg c]) ∨
               (∃ e, env.secondResp = .error e ∧ tail = [])) :
      DeltaSpec env (a :: (ts ++ tail))
  | direct (c : String) : DeltaSpec env [assistantMsg (some c)]

/-! ### Concrete environments and inputs used by witnesses and
counterexamples -/

/-- A turn whose first completion call raises. -/
def envC1 : Env :=
  { routeResp := .error "offline", firstResp := .error "boom",
    secondResp := .ok none, webSearchImpl := fun _ => .ok "R" }

/-- A turn that answers directly (no tools, no detected call). -/
def envDirect : Env :=
  { routeResp := .error "offline", firstResp := .ok ⟨some "Hello.", []⟩,
    secondResp := .ok none, webSearchImpl := fun _ => .ok "R" }

/-- A turn whose response narrates a text-pattern web search. -/
def envC5 : Env :=
  { routeResp := .error "offline",
    firstResp := .ok ⟨some "I\x27ll search for \x27cats\x27", []⟩,
    secondResp := .ok (some "ok"), webSearchImpl := fun _ => .ok "R" }

/-- Router suggests only `web_search`; first response has no tool call. -/
def envC3 : Env :=
  { routeResp := .ok "TOOL: WEB_SEARCH", firstResp := .ok ⟨some "Hi.", []⟩,
    secondResp := .ok (some "ans"), webSearchImpl := fun _ => .ok "R" }

/-- Router suggests only `calculate`; first response has no tool call. -/
def envC3b : Env :=
  { routeResp := .ok "TOOL: CALCULATE", firstResp := .ok ⟨some "Hi.", []⟩,
    secondResp := .ok (some "ans"), webSearchImpl := fun _ => .ok "R" }

/-- Router suggests both tools; first response has no tool call. -/
def envC9 : Env :=
  { routeResp := .ok "TOOL: WEB_SEARCH, CALCULATE", firstResp := .ok ⟨some "Hi.", []⟩,
    secondResp := .ok (some "ans"), webSearchImpl := fun _ => .ok "R" }

/-- Model output on which both the generic `name(args)` pattern and the
later first-person pattern match, with different queries. -/
def c2text : String := "I\x27ll search for \x27cats\x27. search(\"dogs\")"

/-- The history after two consecutive turns against `envC5` (same
caller-supplied buffer), as computed by `run_conversation`. -/
def c5hist2 : Option (List Message) :=
  (run_conversation "q1" (some []) false envC5).bind
    (fun o1 => (run_conversation "q2" (some o1.2.1) false envC5).map (fun o => o.2.1))

def c5expected : List Message :=
  [userMsg "q1",
   manualCallMsg "manual_web_search_call" "web_search" "query" "cats",
   toolMsg "manual_web_search_call" "web_search" "R",
   assistantMsg (some "ok"),
   userMsg "q2",
   manualCallMsg "manual_web_search_call" "web_search" "query" "cats",
   toolMsg "manual_web_search_call" "web_search" "R",
   assistantMsg (some "ok")]

lemma joinL_append (a b : List (List String)) : joinL (a ++ b) = joinL a ++ joinL b := by
  induction a with
  | nil => simp [joinL]
  | cons x r ih => simp [joinL, ih]

lemma takeAppendLe {α : Type} (h d : List α) (i : Nat) (hi : i ≤ h.length) :
    (h ++ d).take i = h.take i := by
  induction h generalizing i with
  | nil => simp at hi; simp [hi]
  | cons x r ih =>
    cases i with
    | zero => simp
    | succ j => simp only [List.cons_append, List.take_succ_cons]
                exact congrArg (x :: ·) (ih j (Nat.le_of_succ_le_succ hi))

lemma takeAppendAdd {α : Type} (h d : List α) (j : Nat) :
    (h ++ d).take (h.length + j) = h ++ d.take j := by
  induction h with
  | nil => simp
  | cons x r ih =>
    simp only [List.cons_append, List.length_cons]
    have : r.length + 1 + j = (r.length + j) + 1 := by omega
    rw [this, List.take_succ_cons, ih]

lemma priorIds_append_left (h d : List Message) (i : Nat) (hi : i ≤ h.length) :
    priorIds (h ++ d) i = priorIds h i := by
  unfold priorIds; rw [takeAppendLe h d i hi]

lemma priorIds_append_right (h d : List Message) (j : Nat) :
    priorIds (h ++ d) (h.length + j) = priorIds h h.length ++ priorIds d j := by
  unfold priorIds
  rw [takeAppendAdd, List.map_append, joinL_append, List.take_length]

lemma priorIds_cons (x : Message) (d : List Message) (j : Nat) :
    priorIds (x :: d) (j + 1) = msgToolIds x ++ priorIds d j := by
  unfold priorIds; rw [List.take_succ_cons]; rfl

/-- Appending a self-contained block to a linked history keeps it linked. -/
lemma toolLinked_append (h d : List Message) (hh : toolLinked h) (hd : selfContained d) :
    toolLinked (h ++ d) := by
  intro i m hget hrole
  by_cases hi : i < h.length
  · rw [List.getElem?_append_left hi] at hget
    obtain ⟨cid, hcid, hmem⟩ := hh i m hget hrole
    exact ⟨cid, hcid, by rwa [priorIds_append_left h d i (Nat.le_of_lt hi)]⟩
  · have hge : h.length ≤ i := Nat.le_of_not_lt hi
    obtain ⟨j, rfl⟩ : ∃ j, i = h.length + j := ⟨i - h.length, by omega⟩
    rw [List.getElem?_append_right hge, Nat.add_sub_cancel_left] at hget
    obtain ⟨cid, hcid, hmem⟩ := hd j m hget hrole
    refine ⟨cid, hcid, ?_⟩
    rw [priorIds_append_right]
    exact List.mem_append_right _ hmem

lemma selfContained_nil : selfContained [] := by
  intro j m hget
  simp at hget

/-- Cons of a non-tool message onto a self-contained block. -/
lemma selfContained_cons_nontool (x : Message) (d : List Message)
    (hx : x.role ≠ Role.tool) (hd : selfContained d) : selfContained (x :: d) := by
  intro j m hget hrole
  cases j with
  | zero => simp at hget; subst hget; exact absurd hrole hx
  | succ j =>
    simp only [List.getElem?_cons_succ] at hget
    obtain ⟨cid, hcid, hmem⟩ := hd j m hget hrole
    exact ⟨cid, hcid, by rw [priorIds_cons]; exact List.mem_append_right _ hmem⟩

/-- A block headed by an assistant message that advertises an id for every
tool message after it is self-contained. -/
lemma selfContained_of_head (a : Message) (d : List Message) (ha : a.role ≠ Role.tool)
    (hcov : ∀ m ∈ d, m.role = Role.tool →
      ∃ cid, m.tool_call_id = some cid ∧ cid ∈ msgToolIds a) :
    selfContained (a :: d) := by
  intro j m hget hrole
  cases j with
  | zero => simp at hget; subst hget; exact absurd hrole ha
  | succ j =>
    simp only [List.getElem?_cons_succ] at hget
    obtain ⟨cid, hcid, hmem⟩ := hcov m (List.getElem?_mem hget) hrole
    exact ⟨cid, hcid, by rw [priorIds_cons]; exact List.mem_append_left _ hmem⟩

/-- A block without tool messages is self-contained. -/
lemma selfContained_noTool (d : List Message) (h : ∀ m ∈ d, m.role ≠ Role.tool) :
    selfContained d := by
  intro j m hget hrole
  exact absurd hrole (h m (List.getElem?_mem hget))

lemma processCalls_spec (sf : Bool) (env : Env) (tcs : List RespToolCall)
    (h0 : List Message) (fb0 : List String) (h1 : List Message) (fb1 : List String)
    (h : processCalls sf env tcs h0 fb0 = some (h1, fb1)) :
    ∃ extra, h1 = h0 ++ extra ∧
      ∀ m ∈ extra, m.role = Role.tool ∧ ∃ tc ∈ tcs, m.tool_call_id = some tc.id := by
  induction tcs generalizing h0 fb0 with
  | nil =>
    simp only [processCalls, Option.some.injEq, Prod.mk.injEq] at h
    exact ⟨[], by simp [h.1.symm], by simp⟩
  | cons tc rest ih =>
    simp only [processCalls] at h
    by_cases hreg : registeredTools.contains tc.fname
    · simp only [hreg, if_true] at h
      cases hargs : tc.arguments with
      | none => rw [hargs] at h; simp at h
      | some args =>
        rw [hargs] at h
        simp only at h
        by_cases hws : tc.fname = "web_search"
        · simp only [hws, if_true] at h
          obtain ⟨extra, he, hcov⟩ := ih _ _ h
          refine ⟨toolMsg tc.id tc.fname (toolRespOfSearch (env.webSearchImpl
            (lookupArg args "query"))) :: extra, by simpa [hws] using he, ?_⟩
          intro m hm
          rcases List.mem_cons.mp hm with rfl | hm
          · exact ⟨rfl, tc, List.mem_cons_self _ _, rfl⟩
          · obtain ⟨hrole, tc', htc', hcid⟩ := hcov m hm
            exact ⟨hrole, tc', List.mem_cons_of_mem _ htc', hcid⟩
        · simp only [hws, if_false] at h
          by_cases hca : tc.fname = "calculate"
          · simp only [hca, if_true] at h
            obtain ⟨extra, he, hcov⟩ := ih _ _ h
            refine ⟨toolMsg tc.id tc.fname (calculateOpt (lookupArg args "expression"))
              :: extra, by simpa [hca] using he, ?_⟩
            intro m hm
            rcases List.mem_cons.mp hm with rfl | hm
            · exact ⟨rfl, tc, List.mem_cons_self _ _, rfl⟩
            · obtain ⟨hrole, tc', htc', hcid⟩ := hcov m hm
              exact ⟨hrole, tc', List.mem_cons_of_mem _ htc', hcid⟩
          · simp only [hca, if_false] at h
            obtain ⟨extra, he, hcov⟩ := ih _ _ h
            refine ⟨toolMsg tc.id tc.fname (mkError ("Unknown function: " ++ tc.fname))
              :: extra, by simpa using he, ?_⟩
            intro m hm
            rcases List.mem_cons.mp hm with rfl | hm
            · exact ⟨rfl, tc, List.mem_cons_self _ _, rfl⟩
            · obtain ⟨hrole, tc', htc', hcid⟩ := hcov m hm
              exact ⟨hrole, tc', List.mem_cons_of_mem _ htc', hcid⟩
    · simp only [hreg, if_false] at h
      obtain ⟨extra, he, hcov⟩ := ih _ _ h
      refine ⟨extra, he, ?_⟩
      intro m hm
      obtain ⟨hrole, tc', htc', hcid⟩ := hcov m hm
      exact ⟨hrole, tc', List.mem_cons_of_mem _ htc', hcid⟩

lemma msgToolIds_respToMessage (r : RespMessage) :
    msgToolIds (respToMessage r) = r.tool_calls.map (fun tc => tc.id) := by
  simp [msgToolIds, respToMessage, List.map_map]

lemma secondCallTail_cases (env : Env) (sf : Bool) (hist : List Message)
    (fb : List String) (tag apology : String) :
    (∃ c, env.secondResp = .ok c ∧
      (secondCallTail env sf hist fb tag apology).2.1 = hist ++ [assistantMsg c]) ∨
    (∃ e, env.secondResp = .error e ∧
      (secondCallTail env sf hist fb tag apology).2.1 = hist) := by
  cases hs : env.secondResp with
  | ok c => exact Or.inl ⟨c, rfl, by simp [secondCallTail, hs]⟩
  | error e => exact Or.inr ⟨e, rfl, by simp [secondCallTail, hs]⟩

lemma structuredPath_spec (sf : Bool) (env : Env) (resp : RespMessage)
    (hist1 : List Message) (fb : List String)
    (out : Option String × List Message × List String)
    (h : structuredPath sf env resp hist1 fb = some out) :
    ∃ d, out.2.1 = hist1 ++ d ∧ DeltaSpec env d := by
  simp only [structuredPath] at h
  cases hp : processCalls sf env resp.tool_calls (hist1 ++ [respToMessage resp]) fb with
  | none => rw [hp] at h; simp at h
  | some pr =>
    rw [hp] at h
    obtain ⟨hist3, fb3⟩ := pr
    obtain ⟨extra, hext, hcov⟩ := processCalls_spec sf env _ _ _ _ _ hp
    simp only [Option.some.injEq] at h
    subst h
    rcases secondCallTail_cases env sf hist3 fb3 "Error in second API call: " apologySearch with
      ⟨c, hs, heq⟩ | ⟨e, hs, heq⟩
    · refine ⟨respToMessage resp :: (extra ++ [assistantMsg c]), ?_, ?_⟩
      · rw [heq, hext]
        simp
      · refine DeltaSpec.withTools _ _ _ rfl ?_ (Or.inl ⟨c, hs, rfl⟩)
        intro m hm
        obtain ⟨hrole, tc, htc, hcid⟩ := hcov m hm
        refine ⟨hrole, tc.id, hcid, ?_⟩
        rw [msgToolIds_respToMessage]
        exact List.mem_map_of_mem _ htc
    · refine ⟨respToMessage resp :: (extra ++ []), ?_, ?_⟩
      · rw [heq, hext]
        simp
      · refine DeltaSpec.withTools _ _ _ rfl ?_ (Or.inr ⟨e, hs, rfl⟩)
        intro m hm
        obtain ⟨hrole, tc, htc, hcid⟩ := hcov m hm
        refine ⟨hrole, tc.id, hcid, ?_⟩
        rw [msgToolIds_respToMessage]
        exact List.mem_map_of_mem _ htc

lemma msgToolIds_manual (id nm k v : String) :
    msgToolIds (manualCallMsg id nm k v) = [id] := by
  simp [msgToolIds, manualCallMsg]

lemma withTools_single (env : Env) (a : Message) (t : Message) (tail : List Message)
    (ha : a.role = Role.assistant) (ht : t.role = Role.tool)
    (hcid : ∃ cid, t.tool_call_id = some cid ∧ cid ∈ msgToolIds a)
    (htail : (∃ c, env.secondResp = .ok c ∧ tail = [assistantMsg c]) ∨
             (∃ e, env.secondResp = .error e ∧ tail = [])) :
    DeltaSpec env (a :: ([t] ++ tail)) := by
  refine DeltaSpec.withTools a [t] tail ha ?_ htail
  intro m hm
  rcases List.mem_singleton.mp hm with rfl
  exact ⟨ht, hcid⟩

lemma textPath_spec (sf : Bool) (env : Env) (tname : String)
    (args : List (String × String)) (hist1 : List Message) (fb : List String)
    (out : Option String × List Message × List String)
    (h : textPath sf env tname args hist1 fb = some out) :
    ∃ d, out.2.1 = hist1 ++ d ∧ DeltaSpec env d := by
  simp only [textPath] at h
  by_cases hws : tname = "web_search"
  · simp only [hws, if_true] at h
    set q := (lookupArg args "query").getD "" with hq
    set res := toolRespOfSearch (env.webSearchImpl (some q)) with hres
    set a := manualCallMsg "manual_web_search_call" "web_search" "query" q with hadef
    set t := toolMsg "manual_web_search_call" "web_search" res with htdef
    simp only [Option.some.injEq] at h
    subst h
    rcases secondCallTail_cases env sf (hist1 ++ [a, t]) _
        "Error in second API call after text tool detection: " apologyResults with
      ⟨c, hs, heq⟩ | ⟨e, hs, heq⟩
    · refine ⟨a :: ([t] ++ [assistantMsg c]), by rw [heq]; simp, ?_⟩
      exact withTools_single env a t _ rfl rfl
        ⟨"manual_web_search_call", rfl, by rw [hadef, msgToolIds_manual]; simp⟩
        (Or.inl ⟨c, hs, rfl⟩)
    · refine ⟨a :: ([t] ++ []), by rw [heq]; simp, ?_⟩
      exact withTools_single env a t _ rfl rfl
        ⟨"manual_web_search_call", rfl, by rw [hadef, msgToolIds_manual]; simp⟩
        (Or.inr ⟨e, hs, rfl⟩)
  · simp only [hws, if_false] at h
    set ex := (lookupArg args "expression").getD "" with hex
    set res := calculate ex with hres
    set a := manualCallMsg "manual_calculate_call" "calculate" "expression" ex with hadef
    set t := toolMsg "manual_calculate_call" "calculate" res with htdef
    simp only [Option.some.injEq] at h
    subst h
    rcases secondCallTail_cases env sf (hist1 ++ [a, t]) _
        "Error in second API call after text tool detection: " apologyResults with
      ⟨c, hs, heq⟩ | ⟨e, hs, heq⟩
    · refine ⟨a :: ([t] ++ [assistantMsg c]), by rw [heq]; simp, ?_⟩
      exact withTools_single env a t _ rfl rfl
        ⟨"manual_calculate_call", rfl, by rw [hadef, msgToolIds_manual]; simp⟩
        (Or.inl ⟨c, hs, rfl⟩)
    · refine ⟨a :: ([t] ++ []), by rw [heq]; simp, ?_⟩
      exact withTools_single env a t _ rfl rfl
        ⟨"manual_calculate_call", rfl, by rw [hadef, msgToolIds_manual]; simp⟩
        (Or.inr ⟨e, hs, rfl⟩)

lemma fallbackPath_spec (sf : Bool) (env : Env) (prompt content : String)
    (suggested : List String) (hist1 : List Message) (fb : List String)
    (out : Option String × List Message × List String)
    (h : fallbackPath sf env prompt content suggested hist1 fb = some out) :
    ∃ d, out.2.1 = hist1 ++ d ∧ DeltaSpec env d := by
  cases suggested with
  | nil =>
    simp only [fallbackPath, Option.some.injEq] at h
    subst h
    exact ⟨[assistantMsg (some content)], rfl, DeltaSpec.direct content⟩
  | cons primary rest =>
    simp only [fallbackPath] at h
    by_cases hws : primary = "web_search"
    · simp only [hws, if_true] at h
      set res := toolRespOfSearch (env.webSearchImpl (some prompt)) with hres
      set a := manualCallMsg "forced_web_search_call" "web_search" "query" prompt with hadef
      set t := toolMsg "forced_web_search_call" "web_search" res with htdef
      simp only [Option.some.injEq] at h
      subst h
      rcases secondCallTail_cases env sf (hist1 ++ [a, t]) _
          "Error in second API call after forced tool usage: " apologyResults with
        ⟨c, hs, heq⟩ | ⟨e, hs, heq⟩
      · refine ⟨a :: ([t] ++ [assistantMsg c]), by rw [heq]; simp, ?_⟩
        exact withTools_single env a t _ rfl rfl
          ⟨"forced_web_search_call", rfl, by rw [hadef, msgToolIds_manual]; simp⟩
          (Or.inl ⟨c, hs, rfl⟩)
      · refine ⟨a :: ([t] ++ []), by rw [heq]; simp, ?_⟩
        exact withTools_single env a t _ rfl rfl
          ⟨"forced_web_search_call", rfl, by rw [hadef, msgToolIds_manual]; simp⟩
          (Or.inr ⟨e, hs, rfl⟩)
    · simp only [hws, if_false] at h
      simp only [Option.some.injEq] at h
      subst h
      exact ⟨[assistantMsg (some content)], rfl, DeltaSpec.direct content⟩

/-- Every returning turn appends the user message and then a
`DeltaSpec`-shaped block. -/
lemma run_split (prompt : String) (histOpt : Option (List Message)) (sf : Bool)
    (env : Env) (out : Option String × List Message × List String)
    (h : run_conversation prompt histOpt sf env = some out) :
    ∃ d, out.2.1 = initHistory histOpt ++ (userMsg prompt :: d) ∧ DeltaSpec env d := by
  simp only [run_conversation] at h
  cases hfr : env.firstResp with
  | error e =>
    simp only [hfr, Option.some.injEq] at h
    subst h
    exact ⟨[], by simp, DeltaSpec.firstFail e hfr⟩
  | ok resp =>
    simp only [hfr] at h
    cases htc : resp.tool_calls with
    | cons tc rest =>
      simp only [htc] at h
      obtain ⟨d, hd, hspec⟩ := structuredPath_spec sf env resp _ _ out h
      exact ⟨d, by rw [hd]; simp, hspec⟩
    | nil =>
      simp only [htc] at h
      cases hc : resp.content with
      | none => simp only [hc] at h; exact absurd h (by simp)
      | some content =>
        simp only [hc] at h
        cases htn : (detect_tool_call content).tool_name with
        | some tname =>
          simp only [htn] at h
          cases hargs : (detect_tool_call content).arguments with
          | none => simp only [hargs] at h; exact absurd h (by simp)
          | some args =>
            simp only [hargs] at h
            obtain ⟨d, hd, hspec⟩ := textPath_spec sf env tname args _ _ out h
            exact ⟨d, by rw [hd]; simp, hspec⟩
        | none =>
          simp only [htn] at h
          obtain ⟨d, hd, hspec⟩ := fallbackPath_spec sf env prompt content _ _ _ out h
          exact ⟨d, by rw [hd]; simp, hspec⟩

/-! ### Detector step results are all-or-nothing -/

lemma stdHandle_full (g1 g2 g0 : String) (d : DetectionResult)
    (h : stdHandle g1 g2 g0 = some d) :
    ∃ n a o, d = ⟨some n, some a, some o⟩ := by
  simp only [stdHandle] at h
  split at h
  · split at h
    · exact ⟨_, _, _, (Option.some.inj h).symm⟩
    · split at h
      · exact ⟨_, _, _, (Option.some.inj h).symm⟩
      · exact absurd h (by simp)
  · exact absurd h (by simp)

lemma stepStd_full (r : RE) (text : String) (d : DetectionResult)
    (h : stepStd r text = some d) : ∃ n a o, d = ⟨some n, some a, some o⟩ := by
  simp only [stepStd] at h
  split at h
  · split at h
    · exact stdHandle_full _ _ _ _ h
    · exact absurd h (by simp)
  · exact absurd h (by simp)

lemma step7_full (text : String) (d : DetectionResult)
    (h : step7 text = some d) : ∃ n a o, d = ⟨some n, some a, some o⟩ := by
  simp only [step7] at h
  split at h
  · split at h
    · exact ⟨_, _, _, (Option.some.inj h).symm⟩
    · exact absurd h (by simp)
  · exact absurd h (by simp)

lemma step8_full (text : String) (d : DetectionResult)
    (h : step8 text = some d) : ∃ n a o, d = ⟨some n, some a, some o⟩ := by
  simp only [step8] at h
  split at h
  · split at h
    · split at h
      · exact ⟨_, _, _, (Option.some.inj h).symm⟩
      · split at h
        · exact ⟨_, _, _, (Option.some.inj h).symm⟩
        · exact stdHandle_full _ _ _ _ h
    · exact absurd h (by simp)
  · exact absurd h (by simp)

lemma stepSI_full (r : RE) (text : String) (d : DetectionResult)
    (h : stepSI r text = some d) : ∃ n a o, d = ⟨some n, some a, some o⟩ := by
  simp only [stepSI] at h
  split at h
  · split at h
    · exact ⟨_, _, _, (Option.some.inj h).symm⟩
    · exact absurd h (by simp)
  · exact absurd h (by simp)

/-- C6: for every input text, the `DetectionResult` returned by
`detect_tool_call` is never partially filled: either `tool_name`,
`arguments` and `original_text` are all populated, or all three are
`none`. -/
theorem c6_detection_all_or_nothing (text : String) :
    (∃ n a o, detect_tool_call text = ⟨some n, some a, some o⟩) ∨
    detect_tool_call text = ⟨none, none, none⟩ := by
  unfold detect_tool_call
  cases hf : (detectSteps text).findSome? id with
  | none => exact Or.inr rfl
  | some d =>
    left
    obtain ⟨o, ho, hod⟩ := List.exists_of_findSome?_eq_some hf
    simp only [id] at hod
    simp only [detectSteps, List.mem_cons, List.not_mem_nil, or_false] at ho
    rcases ho with rfl|rfl|rfl|rfl|rfl|rfl|rfl|rfl|rfl|rfl|rfl|rfl|rfl|rfl|rfl
    · exact stepStd_full _ _ _ hod
    · exact stepStd_full _ _ _ hod
    · exact stepStd_full _ _ _ hod
    · exact stepStd_full _ _ _ hod
    · exact stepStd_full _ _ _ hod
    · exact stepStd_full _ _ _ hod
    · exact stepStd_full _ _ _ hod
    · exact step7_full _ _ hod
    · exact step8_full _ _ hod
    · exact stepStd_full _ _ _ hod
    · exact stepSI_full _ _ _ hod
    · exact stepSI_full _ _ _ hod
    · exact stepSI_full _ _ _ hod
    · exact stepSI_full _ _ _ hod
    · exact stepSI_full _ _ _ hod

/-- C2, counterexample: on `c2text` the first-person pattern
matches — its step alone yields query `"cats"` —
yet the generic `name(args)` pattern — fifth in the list, not last —
produces the detector's result (query `"dogs"`).  This refutes the claim
that the generic pattern is only a last resort that never wins over a
matching intent pattern. -/
theorem c2_counterexample :
    detect_tool_call c2text =
      ⟨some "web_search", some [("query", "dogs")], some "search(\"dogs\")"⟩ ∧
    step7 c2text =
      some ⟨some "web_search", some [("query", "cats")],
            some "I\x27ll search for \x27cats\x27"⟩ ∧
    detect_tool_call c2text ≠
      ⟨some "web_search", some [("query", "cats")],
       some "I\x27ll search for \x27cats\x27"⟩ :=
  ⟨rfl, rfl, by decide⟩

/-- C2, amended: the detector evaluates its pattern list in the fixed
source order and the first pattern that both matches and yields a
registered tool produces the result; but the generic `name(args)` pattern
is fifth of ten, tried before the tool-tag, call-to-action and
first-person patterns, so whenever it produces a result the later prose
patterns are never consulted. -/
theorem c2_amended (text : String) (r : DetectionResult)
    (h0 : stepStd pat0 text = none) (h1 : stepStd pat1 text = none)
    (h2 : stepStd pat2 text = none) (h3 : stepStd pat3 text = none)
    (h4 : stepStd pat4 text = some r) :
    detect_tool_call text = r := by
  unfold detect_tool_call detectSteps
  rw [List.findSome?_cons]
  simp only [id, h0]
  rw [List.findSome?_cons]
  simp only [id, h1]
  rw [List.findSome?_cons]
  simp only [id, h2]
  rw [List.findSome?_cons]
  simp only [id, h3]
  rw [List.findSome?_cons]
  simp only [id, h4]

theorem c2_witness :
    detect_tool_call c2text =
      ⟨some "web_search", some [("query", "dogs")], some "search(\"dogs\")"⟩ :=
  c2_amended c2text _ rfl rfl rfl rfl rfl

/-- C4: `route_query` returns the empty suggestion on any failure of the
remote call (never propagating it), and on success computes the
suggestion by two independent case-insensitive substring checks of the
keywords against the stripped, upper-cased response, so both, one or
neither tool may be suggested (witnessed by the four concrete
responses). -/
theorem c4_router_failopen_and_independent :
    (∀ e, route_query (.error e) = []) ∧
    (∀ s, ("web_search" ∈ route_query (.ok s) ↔
             containsSub (asciiUpper (pyStrip s)) "WEB_SEARCH" = true) ∧
          ("calculate" ∈ route_query (.ok s) ↔
             containsSub (asciiUpper (pyStrip s)) "CALCULATE" = true)) ∧
    route_query (.ok " tool: web_search, calculate ") = ["web_search", "calculate"] ∧
    route_query (.ok "TOOL: WEB_SEARCH") = ["web_search"] ∧
    route_query (.ok "TOOL: CALCULATE") = ["calculate"] ∧
    route_query (.ok "NO TOOL") = [] := by
  refine ⟨fun e => rfl, fun s => ?_, rfl, rfl, rfl, rfl⟩
  cases hA : containsSub (asciiUpper (pyStrip s)) "WEB_SEARCH" <;>
    cases hB : containsSub (asciiUpper (pyStrip s)) "CALCULATE" <;>
      simp [route_query, hA, hB]

/-- C8, counterexample: the first-call model is selected by the
routing outcome, but `MODEL` and `GENERAL_MODEL` are the same string, so
the "no tool suggested" branch and the "tool suggested" branch select the
same model — the two branches do not use distinct model tiers. -/
theorem c8_counterexample :
    selectedModel ["web_search"] = selectedModel [] ∧ MODEL = GENERAL_MODEL :=
  ⟨rfl, rfl⟩

/-- C8, amended: the selection branch exists — `GENERAL_MODEL` when the
router suggested nothing, `MODEL` otherwise — but both constants denote
`llama-3.3-70b-versatile`, so both branches use the same model; only the
routing call's `ROUTING_MODEL` is a distinct (cheaper) tier. -/
theorem c8_amended :
    selectedModel [] = GENERAL_MODEL ∧
    (∀ ts : List String, ts ≠ [] → selectedModel ts = MODEL) ∧
    GENERAL_MODEL = MODEL ∧ ROUTING_MODEL ≠ MODEL := by
  refine ⟨rfl, fun ts hts => ?_, rfl, by decide⟩
  cases ts with
  | nil => exact absurd rfl hts
  | cons t r => rfl

theorem c8_witness : selectedModel ["web_search"] = MODEL :=
  c8_amended.2.1 ["web_search"] (by simp)

/-- C7: for every input string, `calculate` returns a JSON object with
either a `result` or an `error` key (it is a total function, never
raising), and any input containing a non-whitelisted character yields the
fixed invalid-characters error object. -/
theorem c7_calculate_total_shape (s : String) :
    ((∃ v, calculate s = mkResult v) ∨ (∃ m, calculate s = mkError m)) ∧
    (s.data.any (fun c => !wlChar c) = true →
      calculate s = mkError "Invalid characters in expression") := by
  constructor
  · by_cases hw : isWhitelisted s
    · cases hpe : pyEval (replaceCaret s) with
      | ok v => exact Or.inl ⟨renderPyVal v, by simp [calculate, hw, hpe]⟩
      | error e =>
        exact Or.inr ⟨"Error calculating: " ++ e, by simp [calculate, hw, hpe]⟩
    · exact Or.inr ⟨"Invalid characters in expression",
        by simp [calculate, Bool.eq_false_iff.mpr hw]⟩
  · intro hbad
    have hw : isWhitelisted s = false := by
      obtain ⟨c, hc, hcw⟩ := List.any_eq_true.mp hbad
      apply Bool.eq_false_iff.mpr
      intro hall
      have := List.all_eq_true.mp hall c hc
      simp at hcw
      simp [this] at hcw
    simp [calculate, hw]

theorem c7_witness :
    calculate "2+a" = mkError "Invalid characters in expression" ∧
    ((∃ v, calculate "1+1" = mkResult v) ∨ ∃ m, calculate "1+1" = mkError m) :=
  ⟨(c7_calculate_total_shape "2+a").2 (by decide), (c7_calculate_total_shape "1+1").1⟩

/-! ### Caret rewriting lemmas for C10 -/

lemma flatMapL_append (f : Char → List Char) (a b : List Char) :
    flatMapL f (a ++ b) = flatMapL f a ++ flatMapL f b := by
  induction a with
  | nil => simp [flatMapL]
  | cons c r ih => simp [flatMapL, ih]

lemma replaceCaretL_all_wl (l : List Char) :
    (replaceCaretL l).all wlChar = l.all wlChar := by
  induction l with
  | nil => rfl
  | cons c r ih =>
    by_cases hc : c = '^'
    · subst hc
      show (['*', '*'] ++ replaceCaretL r).all wlChar = (wlChar '^' && r.all wlChar)
      rw [List.all_append, ih,
          show (['*', '*'] : List Char).all wlChar = true from by decide,
          show wlChar '^' = true from by decide]
    · have hstep : replaceCaretL (c :: r) = [c] ++ replaceCaretL r := by
        simp [replaceCaretL, flatMapL, if_neg hc]
      rw [hstep, List.all_append, ih]
      simp

lemma replaceCaretL_idem (l : List Char) :
    replaceCaretL (replaceCaretL l) = replaceCaretL l := by
  induction l with
  | nil => rfl
  | cons c r ih =>
    by_cases hc : c = '^'
    · subst hc
      show replaceCaretL (['*', '*'] ++ replaceCaretL r) = ['*', '*'] ++ replaceCaretL r
      rw [show (replaceCaretL (['*', '*'] ++ replaceCaretL r) : List Char)
            = replaceCaretL ['*', '*'] ++ replaceCaretL (replaceCaretL r) from
            flatMapL_append _ _ _, ih]
      rfl
    · have hstep : replaceCaretL (c :: r) = [c] ++ replaceCaretL r := by
        simp [replaceCaretL, flatMapL, if_neg hc]
      rw [hstep,
          show (replaceCaretL ([c] ++ replaceCaretL r) : List Char)
            = replaceCaretL [c] ++ replaceCaretL (replaceCaretL r) from
            flatMapL_append _ _ _, ih]
      simp [replaceCaretL, flatMapL, if_neg hc]

lemma isWhitelisted_replaceCaret (s : String) :
    isWhitelisted (replaceCaret s) = isWhitelisted s := by
  unfold isWhitelisted replaceCaret
  exact replaceCaretL_all_wl s.data

lemma replaceCaret_idem (s : String) :
    replaceCaret (replaceCaret s) = replaceCaret s := by
  unfold replaceCaret
  exact congrArg String.mk (replaceCaretL_idem s.data)

/-- C10: `calculate` interprets `^` as exponentiation: every caret is
rewritten to `**` before evaluation (so an input and its caret-rewritten
form are indistinguishable to `calculate`), and concretely
`calculate "2^3"` yields 8, not the bitwise-XOR value 1. -/
theorem c10_caret_is_exponentiation :
    (∀ s, calculate s = calculate (replaceCaret s)) ∧
    calculate "2^3" = mkResult "8" ∧
    calculate "2^3" ≠ mkResult "1" := by
  refine ⟨fun s => ?_, rfl, by decide⟩
  cases hw : isWhitelisted s with
  | true =>
    simp only [calculate, isWhitelisted_replaceCaret, hw, Bool.not_true,
      Bool.false_eq_true, if_false]
    rw [replaceCaret_idem]
  | false =>
    simp only [calculate, isWhitelisted_replaceCaret, hw, Bool.not_false, if_true]

/-- C1, counterexample: when the first completion call raises, the turn
returns the apology with the history unmodified further — its last
message is the user message, not an assistant message.  This refutes the
claim for the caught-failure branches. -/
theorem c1_counterexample :
    run_conversation "hi" (some []) false envC1 =
      some (some apologyFirst, [userMsg "hi"], []) ∧
    ([userMsg "hi"].getLast?).map Message.role = some Role.user ∧
    Role.user ≠ Role.assistant :=
  ⟨rfl, rfl, by decide⟩

/-- C1, amended: on every turn in which the first and second completion
calls succeed (and the turn returns), the final answer is appended as an
assistant message, so the returned history ends on an assistant turn; the
caught-failure branches of the two calls instead return the history
unmodified further. -/
theorem c1_amended (prompt : String) (histOpt : Option (List Message)) (sf : Bool)
    (env : Env) (out : Option String × List Message × List String)
    (resp : RespMessage) (c2opt : Option String)
    (h1 : env.firstResp = .ok resp) (h2 : env.secondResp = .ok c2opt)
    (hrun : run_conversation prompt histOpt sf env = some out) :
    (out.2.1.getLast?).map Message.role = some Role.assistant := by
  obtain ⟨d, hd, hspec⟩ := run_split prompt histOpt sf env out hrun
  cases hspec with
  | firstFail e he => rw [h1] at he; exact absurd he (by simp)
  | withTools a ts tail ha hts htail =>
    rcases htail with ⟨c, hs, rfl⟩ | ⟨e, hs, rfl⟩
    · rw [hd,
        show initHistory histOpt ++ (userMsg prompt :: (a :: (ts ++ [assistantMsg c])))
          = (initHistory histOpt ++ userMsg prompt :: a :: ts) ++ [assistantMsg c] from
            by simp,
        List.getLast?_concat]
      rfl
    · rw [h2] at hs; exact absurd hs (by simp)
  | direct c =>
    rw [hd,
      show initHistory histOpt ++ (userMsg prompt :: [assistantMsg (some c)])
        = (initHistory histOpt ++ [userMsg prompt]) ++ [assistantMsg (some c)] from
          by simp,
      List.getLast?_concat]
    rfl

theorem c1_witness :
    (([userMsg "hi", assistantMsg (some "Hello.")] : List Message).getLast?).map
      Message.role = some Role.assistant :=
  c1_amended "hi" (some []) false envDirect
    (some "Hello.", [userMsg "hi", assistantMsg (some "Hello.")], [])
    ⟨some "Hello.", []⟩ none rfl rfl rfl

/-- C5, counterexample: two consecutive turns on the same history both
take the text-detected path and reuse the fixed synthetic id
`manual_web_search_call`; the tool message of the second turn (index 6)
then matches two preceding `tool_calls` entries, not exactly one. -/
theorem c5_counterexample :
    c5hist2 = some c5expected ∧
    c5expected[6]? = some (toolMsg "manual_web_search_call" "web_search" "R") ∧
    (priorIds c5expected 6).count "manual_web_search_call" = 2 ∧
    (priorIds c5expected 6).count "manual_web_search_call" ≠ 1 :=
  ⟨rfl, rfl, rfl, by decide⟩

/-- C5, amended: after any returning turn on a history in which every
tool message is already linked to a preceding assistant `tool_calls`
entry, the updated history keeps that property — every tool-role
message's `tool_call_id` matches at least one preceding entry (exact
uniqueness can fail when synthetic ids recur across turns). -/
theorem c5_amended (prompt : String) (histOpt : Option (List Message)) (sf : Bool)
    (env : Env) (out : Option String × List Message × List String)
    (hlink : toolLinked (initHistory histOpt))
    (hrun : run_conversation prompt histOpt sf env = some out) :
    toolLinked out.2.1 := by
  obtain ⟨d, hd, hspec⟩ := run_split prompt histOpt sf env out hrun
  rw [hd]
  apply toolLinked_append _ _ hlink
  apply selfContained_cons_nontool _ _ (by simp [userMsg])
  cases hspec with
  | firstFail e he => exact selfContained_nil
  | withTools a ts tail ha hts htail =>
    apply selfContained_of_head a _ (by rw [ha]; simp)
    intro m hm hrole
    rcases List.mem_append.mp hm with hmts | hmtail
    · exact (hts m hmts).2
    · exfalso
      rcases htail with ⟨c, _, rfl⟩ | ⟨e, _, rfl⟩
      · rcases List.mem_singleton.mp hmtail with rfl
        simp [assistantMsg] at hrole
      · simp at hmtail
  | direct c =>
    apply selfContained_noTool
    intro m hm
    rcases List.mem_singleton.mp hm with rfl
    simp [assistantMsg]

theorem c5_witness :
    toolLinked [userMsg "hi", assistantMsg (some "Hello.")] :=
  c5_amended "hi" (some []) false envDirect
    (some "Hello.", [userMsg "hi", assistantMsg (some "Hello.")], [])
    (by intro i m hg; simp [initHistory] at hg) rfl

/-- C3: on a turn whose first response has no structured tool calls and
whose content triggers no text detection, if the router suggested only
`web_search` the orchestrator synthesizes a structured `web_search` call
whose query is the original user prompt, appends its result, and issues
the second call whose content becomes the final answer; if the router
suggested only `calculate`, no synthetic call is made and the first
response's content is returned unchanged (feedback strings are projected
away). -/
theorem c3_forced_fallback_policy (prompt : String) (histOpt : Option (List Message))
    (sf : Bool) (env : Env) (resp : RespMessage) (content : String) (c2 : String)
    (hfr : env.firstResp = .ok resp) (hnt : resp.tool_calls = [])
    (hc : resp.content = some content)
    (hdet : (detect_tool_call content).tool_name = none)
    (hs : env.secondResp = .ok (some c2)) :
    (route_query env.routeResp = ["web_search"] →
      (run_conversation prompt histOpt sf env).map (fun o => (o.1, o.2.1)) =
        some (some c2,
          initHistory histOpt ++
            [userMsg prompt,
             manualCallMsg "forced_web_search_call" "web_search" "query" prompt,
             toolMsg "forced_web_search_call" "web_search"
               (toolRespOfSearch (env.webSearchImpl (some prompt))),
             assistantMsg (some c2)])) ∧
    (route_query env.routeResp = ["calculate"] →
      (run_conversation prompt histOpt sf env).map (fun o => (o.1, o.2.1)) =
        some (some content,
          initHistory histOpt ++ [userMsg prompt, assistantMsg (some content)])) := by
  constructor
  · intro hroute
    simp only [run_conversation, hroute, hfr, hnt, hc, hdet, fallbackPath,
      secondCallTail, hs]
    simp
  · intro hroute
    simp only [run_conversation, hroute, hfr, hnt, hc, hdet, fallbackPath,
      secondCallTail, hs]
    simp

theorem c3_witness :
    (run_conversation "now" (some []) false envC3).map (fun o => (o.1, o.2.1)) =
      some (some "ans",
        [userMsg "now",
         manualCallMsg "forced_web_search_call" "web_search" "query" "now",
         toolMsg "forced_web_search_call" "web_search" "R",
         assistantMsg (some "ans")]) ∧
    (run_conversation "now" (some []) false envC3b).map (fun o => (o.1, o.2.1)) =
      some (some "Hi.", [userMsg "now", assistantMsg (some "Hi.")]) :=
  ⟨(c3_forced_fallback_policy "now" (some []) false envC3 ⟨some "Hi.", []⟩ "Hi." "ans"
      rfl rfl rfl rfl rfl).1 rfl,
   (c3_forced_fallback_policy "now" (some []) false envC3b ⟨some "Hi.", []⟩ "Hi." "ans"
      rfl rfl rfl rfl rfl).2 rfl⟩

/-- C9: `route_query` only ever returns `[]`, `[web_search]`,
`[calculate]` or `[web_search, calculate]` — `web_search`, when present,
is always first — and consequently on a forced-fallback turn where both
tools were suggested the synthesized call is a `web_search` call (never
`calculate`). -/
theorem c9_websearch_listed_first :
    (∀ r : Except String String,
      route_query r = [] ∨ route_query r = ["web_search"] ∨
      route_query r = ["calculate"] ∨ route_query r = ["web_search", "calculate"]) ∧
    (∀ (prompt : String) (histOpt : Option (List Message)) (sf : Bool) (env : Env)
       (resp : RespMessage) (content : String) (c2 : String),
      env.firstResp = .ok resp → resp.tool_calls = [] → resp.content = some content →
      (detect_tool_call content).tool_name = none → env.secondResp = .ok (some c2) →
      route_query env.routeResp = ["web_search", "calculate"] →
      (run_conversation prompt histOpt sf env).map (fun o => (o.1, o.2.1)) =
        some (some c2,
          initHistory histOpt ++
            [userMsg prompt,
             manualCallMsg "forced_web_search_call" "web_search" "query" prompt,
             toolMsg "forced_web_search_call" "web_search"
               (toolRespOfSearch (env.webSearchImpl (some prompt))),
             assistantMsg (some c2)])) := by
  constructor
  · intro r
    cases r with
    | error e => exact Or.inl rfl
    | ok s =>
      cases hA : containsSub (asciiUpper (pyStrip s)) "WEB_SEARCH" <;>
        cases hB : containsSub (asciiUpper (pyStrip s)) "CALCULATE" <;>
          simp [route_query, hA, hB]
  · intro prompt histOpt sf env resp content c2 hfr hnt hc hdet hs hroute
    simp only [run_conversation, hroute, hfr, hnt, hc, hdet, fallbackPath,
      secondCallTail, hs]
    simp

theorem c9_witness :
    (run_conversation "now" (some []) false envC9).map (fun o => (o.1, o.2.1)) =
      some (some "ans",
        [userMsg "now",
         manualCallMsg "forced_web_search_call" "web_search" "query" "now",
         toolMsg "forced_web_search_call" "web_search" "R",
         assistantMsg (some "ans")]) :=
  c9_websearch_listed_first.2 "now" (some []) false envC9 ⟨some "Hi.", []⟩ "Hi." "ans"
    rfl rfl rfl rfl rfl rfl
